import Mathlib

/-!
Shallow embedding of the MELD node firmware (`src/fw/main.cpp`) and of its
WebAssembly simulation backend (`src/sim/hal-wasm.cpp`).

Conventions of the embedding:
* C byte buffers become `List Nat` whose elements are < 256 where it matters;
  C strings become Lean `String`.
* `uint64_t` millisecond clocks become `Nat`; the C subtraction `now - last`
  on `uint64_t` is rendered as truncated `Nat` subtraction, which agrees with
  the C value whenever `last ≤ now` (the clock is monotone).
* HAL calls performed by a ritual dispatch are recorded in an effect trace
  (`Effect`), so that claims about display / LED / buzzer / storage sequencing
  become claims about the trace.
* The key-value persistence engine behind `js_storage_save` / `js_storage_load`
  lives outside this repository's sources; it is modelled from the spec as a
  flat association list from string keys to byte lists.
* `system_millis` values observed during one dispatch are supplied by a clock
  function `clk : Nat → Nat` giving the value returned by the k-th
  `system_millis()` call of that dispatch; no relation between successive
  calls is assumed.
-/

namespace Meld

/-- One uppercase hex digit, as produced by C `sprintf "%02X"`. -/
def hexDigit (n : Nat) : Char :=
  if n < 10 then Char.ofNat (48 + n) else Char.ofNat (55 + n)

/-- The two uppercase hex digits of one byte (`sprintf "%02X"` of a `uint8_t`). -/
def byteToHex (b : Nat) : List Char :=
  [hexDigit (b / 16 % 16), hexDigit (b % 16)]

/-- `uid_to_string` from `src/fw/main.cpp`: each uid byte becomes two uppercase
hex digits, in order. -/
def uid_to_string (uid : List Nat) : String :=
  ⟨uid.foldr (fun b acc => byteToHex b ++ acc) []⟩

/-- Modelled from the spec: the flat ASCII-keyed persistence namespace behind
`js_storage_save` / `js_storage_load` (the storage engine itself is outside
`src/`). `save` overwrites the value under a key, `load` of an absent key
yields nothing, and a `load` immediately after a `save` of the same key
observes the new value. -/
def Storage := List (String × List Nat)

/-- Modelled from the spec: look up the bytes stored under a key
(`none` for an absent key, as `load` then reports length 0). -/
def Storage.lookup (st : Storage) (key : String) : Option (List Nat) :=
  match st with
  | [] => none
  | (k, v) :: rest => if k = key then some v else Storage.lookup rest key

/-- Modelled from the spec: store bytes under a key, replacing any previous
value under the same key. -/
def Storage.store (st : Storage) (key : String) (val : List Nat) : Storage :=
  match st with
  | [] => [(key, val)]
  | (k, v) :: rest =>
      if k = key then (k, val) :: rest else (k, v) :: Storage.store rest key val

/-- `ritual_config_t` from `src/fw/main.cpp`.  `behavior` is kept as the raw
integer written into the enum field (the JS configurator casts an arbitrary
`int` to `ritual_behavior_t`): 0 = SAVE_MOMENT, 1 = SEND_TIP, 2 = VOTE_A,
3 = VOTE_B, 4 = UNLOCK_CONTENT, 5 = TRIGGER_LIGHT, 6 = PLAY_SOUND,
7 = INCREMENT_COUNTER, 8 = CUSTOM.  `tip_amount_repr` stands for the `%.2f`
rendering of the float `tip_amount` field, which the claims never inspect. -/
structure RitualConfig where
  node_id : String
  label : String
  behavior : Nat
  tip_amount_repr : String
  vote_option : String
  counter_name : String
  light_pattern : String
  sound_file : String

/-- The default configuration installed by `setup()` in `src/fw/main.cpp`. -/
def default_config : RitualConfig :=
  { node_id := "default-node"
    label := "Default Ritual"
    behavior := 0
    tip_amount_repr := "5.00"
    vote_option := "Option A"
    counter_name := "default_counter"
    light_pattern := "rainbow"
    sound_file := "beep.wav" }

/-- One observable HAL effect emitted during a ritual dispatch. -/
inductive Effect where
  | displayClear : Effect
  | displayText (x y : Nat) (text : String) (size : Nat) : Effect
  | displayUpdate (part : Bool) : Effect
  | ledSet (isOn : Bool) : Effect
  | ledBlink (times delayMs : Nat) : Effect
  | buzzerTone (freq dur : Nat) : Effect
  | buzzerSuccess : Effect
  | storageSave (key : String) (data : List Nat) : Effect
  | delay (ms : Nat) : Effect
  | debug (msg : String) : Effect
  deriving DecidableEq, Repr

/-- `show_status_message` from `src/fw/main.cpp`, as an effect trace. -/
def show_status_message (label msg : String) : List Effect :=
  [Effect.displayClear,
   Effect.displayText 10 10 "MELD Node" 2,
   Effect.displayText 10 50 label 1,
   Effect.displayText 10 80 "Status:" 1,
   Effect.displayText 10 100 msg 1,
   Effect.displayUpdate true]

/-- `show_ready_screen` from `src/fw/main.cpp`, as an effect trace. -/
def show_ready_screen (label : String) : List Effect :=
  [Effect.displayClear,
   Effect.displayText 50 50 "MELD Node" 3,
   Effect.displayText 30 120 label 2,
   Effect.displayText 10 180 "Tap NFC tag to activate" 1,
   Effect.displayText 10 200 "Touch screen for menu" 1,
   Effect.displayUpdate false]

/-- The bytes of an (ASCII) string, as written to storage. -/
def strBytes (s : String) : List Nat :=
  s.data.map Char.toNat

/-- The 4 bytes loaded by `storage_load(counter_name, count_data, 4)` into a
zero-initialized buffer: the stored bytes (at most 4 of them), zero-padded.
An absent key loads nothing and leaves the zeros. -/
def load4 (st : Storage) (key : String) : List Nat :=
  let loaded := ((st.lookup key).getD []).take 4
  loaded ++ List.replicate (4 - loaded.length) 0

/-- Big-endian decoding `(b0 << 24) | (b1 << 16) | (b2 << 8) | b3` of a 4-byte
buffer of `uint8_t` values (each byte reduced mod 256 as in C). -/
def beDecode (b : List Nat) : Nat :=
  (b.map (· % 256)).foldl (fun acc x => acc * 256 + x) 0

/-- Big-endian encoding of a `uint32_t` into 4 bytes, as in
`execute_increment_counter`. -/
def encodeBE4 (n : Nat) : List Nat :=
  [n / 2 ^ 24 % 256, n / 2 ^ 16 % 256, n / 2 ^ 8 % 256, n % 256]

/-- `execute_save_moment` from `src/fw/main.cpp` as a trace/storage function.
`clk k` is the value of the k-th `system_millis()` call; `ok` is the result the
storage engine reports for the (ignored) `storage_save`. -/
def execute_save_moment (cfg : RitualConfig) (uid_str : String) (clk : Nat → Nat)
    (ok : Bool) (st : Storage) : List Effect × Storage :=
  let moment_data := "\x7b\"uid\":\"" ++ uid_str ++ "\",\"node\":\"" ++ cfg.node_id ++
      "\",\"timestamp\":" ++ toString (clk 0) ++ ",\"verified\":true\x7d"
  let key := "moment_" ++ toString (clk 1)
  (Effect.debug ("Saving moment for UID: " ++ uid_str) ::
     show_status_message cfg.label "Saving moment..." ++
     [Effect.ledBlink 3 200, Effect.buzzerSuccess,
      Effect.storageSave key (strBytes moment_data)] ++
     show_status_message cfg.label "Moment saved!" ++
     [Effect.delay 2000] ++
     show_ready_screen cfg.label,
   if ok then st.store key (strBytes moment_data) else st)

/-- `execute_send_tip` from `src/fw/main.cpp` as a trace/storage function. -/
def execute_send_tip (cfg : RitualConfig) (uid_str : String) (clk : Nat → Nat)
    (ok : Bool) (st : Storage) : List Effect × Storage :=
  let tip_data := "\x7b\"uid\":\"" ++ uid_str ++ "\",\"amount\":" ++ cfg.tip_amount_repr ++
      ",\"node\":\"" ++ cfg.node_id ++ "\",\"timestamp\":" ++ toString (clk 0) ++ "\x7d"
  let key := "tip_" ++ toString (clk 1)
  (Effect.debug ("Sending tip: $" ++ cfg.tip_amount_repr ++ " for UID: " ++ uid_str) ::
     show_status_message cfg.label "Sending tip..." ++
     [Effect.ledBlink 5 100,
      Effect.buzzerTone 800 100, Effect.delay 120,
      Effect.buzzerTone 1000 100, Effect.delay 120,
      Effect.buzzerTone 1200 150,
      Effect.storageSave key (strBytes tip_data)] ++
     show_status_message cfg.label ("Tip sent: $" ++ cfg.tip_amount_repr) ++
     [Effect.delay 2000] ++
     show_ready_screen cfg.label,
   if ok then st.store key (strBytes tip_data) else st)

/-- `execute_vote` from `src/fw/main.cpp` as a trace/storage function
(`option_a` selects the "A" or "B" branch). -/
def execute_vote (cfg : RitualConfig) (uid_str : String) (option_a : Bool)
    (clk : Nat → Nat) (ok : Bool) (st : Storage) : List Effect × Storage :=
  let option := if option_a then "A" else "B"
  let vote_data := "\x7b\"uid\":\"" ++ uid_str ++ "\",\"option\":\"" ++ option ++
      "\",\"vote_option\":\"" ++ cfg.vote_option ++ "\",\"node\":\"" ++ cfg.node_id ++
      "\",\"timestamp\":" ++ toString (clk 0) ++ "\x7d"
  let key := "vote_" ++ toString (clk 1)
  (Effect.debug ("Voting " ++ option ++ ": " ++ cfg.vote_option ++ " for UID: " ++ uid_str) ::
     show_status_message cfg.label ("Voting " ++ option ++ "...") ++
     (if option_a then
        [Effect.ledSet true, Effect.buzzerTone 1000 500, Effect.ledSet false]
      else
        [Effect.ledBlink 2 250, Effect.buzzerTone 800 300, Effect.delay 100,
         Effect.buzzerTone 600 300]) ++
     [Effect.storageSave key (strBytes vote_data)] ++
     show_status_message cfg.label ("Vote " ++ option ++ " recorded") ++
     [Effect.delay 2000] ++
     show_ready_screen cfg.label,
   if ok then st.store key (strBytes vote_data) else st)

/-- `execute_increment_counter` from `src/fw/main.cpp` as a trace/storage
function: load the 4-byte big-endian counter (zeros if absent), increment as a
`uint32_t`, store the 4 big-endian bytes back under the same key. -/
def execute_increment_counter (cfg : RitualConfig) (uid_str : String) (clk : Nat → Nat)
    (ok : Bool) (st : Storage) : List Effect × Storage :=
  let current_count := (beDecode (load4 st cfg.counter_name) + 1) % 2 ^ 32
  let newBytes := encodeBE4 current_count
  (Effect.debug ("Incrementing counter: " ++ cfg.counter_name ++ " for UID: " ++ uid_str) ::
     show_status_message cfg.label "Updating counter..." ++
     [Effect.storageSave cfg.counter_name newBytes,
      Effect.ledBlink (current_count % 10) 150,
      Effect.buzzerTone (1000 + current_count % 500) 200] ++
     show_status_message cfg.label (cfg.counter_name ++ ": " ++ toString current_count) ++
     [Effect.delay 2000] ++
     show_ready_screen cfg.label,
   if ok then st.store cfg.counter_name newBytes else st)

/-- One cycle of the "rainbow" light pattern in `execute_trigger_light`. -/
def rainbowCycle (i : Nat) : List Effect :=
  [Effect.ledSet true, Effect.buzzerTone (500 + i * 100) 100, Effect.delay 100,
   Effect.ledSet false, Effect.delay 50]

/-- `execute_trigger_light` from `src/fw/main.cpp` as a trace/storage function. -/
def execute_trigger_light (cfg : RitualConfig) (uid_str : String) (clk : Nat → Nat)
    (ok : Bool) (st : Storage) : List Effect × Storage :=
  (Effect.debug ("Triggering light pattern: " ++ cfg.light_pattern ++ " for UID: " ++ uid_str) ::
     show_status_message cfg.label "Light show!" ++
     (if cfg.light_pattern = "rainbow" then
        (List.range 10).foldr (fun i acc => rainbowCycle i ++ acc) []
      else if cfg.light_pattern = "pulse" then
        (List.range 5).foldr (fun _ acc =>
          [Effect.ledSet true, Effect.delay 50, Effect.ledSet false, Effect.delay 50] ++ acc) []
      else
        [Effect.ledBlink 10 100]) ++
     show_status_message cfg.label "Light show complete" ++
     [Effect.delay 1000] ++
     show_ready_screen cfg.label,
   st)

/-- `execute_unlock_content` from `src/fw/main.cpp` as a trace/storage function. -/
def execute_unlock_content (cfg : RitualConfig) (uid_str : String) (clk : Nat → Nat)
    (ok : Bool) (st : Storage) : List Effect × Storage :=
  let unlock_data := "\x7b\"uid\":\"" ++ uid_str ++ "\",\"content_id\":\"" ++ cfg.node_id ++
      "\",\"node\":\"" ++ cfg.node_id ++ "\",\"timestamp\":" ++ toString (clk 0) ++ "\x7d"
  let key := "unlock_" ++ toString (clk 1)
  (Effect.debug ("Unlocking content for UID: " ++ uid_str) ::
     show_status_message cfg.label "Unlocking content..." ++
     [Effect.ledSet true, Effect.buzzerSuccess, Effect.delay 2000, Effect.ledSet false,
      Effect.storageSave key (strBytes unlock_data)] ++
     show_status_message cfg.label "Content unlocked!" ++
     [Effect.delay 2000] ++
     show_ready_screen cfg.label,
   if ok then st.store key (strBytes unlock_data) else st)

/-- `execute_ritual_behavior` from `src/fw/main.cpp`: the `switch` over the
behavior enum value (0 SAVE_MOMENT, 1 SEND_TIP, 2 VOTE_A, 3 VOTE_B,
4 UNLOCK_CONTENT, 5 TRIGGER_LIGHT, 7 INCREMENT_COUNTER; everything else —
including 6 PLAY_SOUND and 8 CUSTOM — falls to the `default` arm). -/
def execute_ritual_behavior (cfg : RitualConfig) (uid_str : String) (clk : Nat → Nat)
    (ok : Bool) (st : Storage) : List Effect × Storage :=
  if cfg.behavior = 0 then execute_save_moment cfg uid_str clk ok st
  else if cfg.behavior = 1 then execute_send_tip cfg uid_str clk ok st
  else if cfg.behavior = 2 then execute_vote cfg uid_str true clk ok st
  else if cfg.behavior = 3 then execute_vote cfg uid_str false clk ok st
  else if cfg.behavior = 7 then execute_increment_counter cfg uid_str clk ok st
  else if cfg.behavior = 5 then execute_trigger_light cfg uid_str clk ok st
  else if cfg.behavior = 4 then execute_unlock_content cfg uid_str clk ok st
  else
    (show_status_message cfg.label "Unknown behavior" ++
       [Effect.delay 1000] ++ show_ready_screen cfg.label,
     st)

/-- Projection of a trace onto its display effects. -/
def displayOf (tr : List Effect) : List Effect :=
  tr.filter fun e =>
    match e with
    | Effect.displayClear => true
    | Effect.displayText _ _ _ _ => true
    | Effect.displayUpdate _ => true
    | _ => false

/-- Projection of a trace onto its `storage_save` calls, as (key, bytes) pairs. -/
def savesOf (tr : List Effect) : List (String × List Nat) :=
  tr.foldr (fun e acc =>
    match e with
    | Effect.storageSave k d => (k, d) :: acc
    | _ => acc) []

/-! ### Acquisition loop: NFC debounce (`loop`, lines 349–375 of main.cpp) -/

/-- The firmware state the NFC part of `loop()` reads and writes:
`last_nfc_check` (throttle) and `last_uid` (presence debounce; the empty
string encodes "none"). -/
structure NfcLoopState where
  last_nfc_check : Nat
  last_uid : String
  deriving DecidableEq, Repr

/-- One poll of the NFC half of `loop()` in `src/fw/main.cpp`.  `now` is
`system_millis()` at loop entry; `tag` is `some uid` when `nfc_tag_present()`
holds and `nfc_get_uid` fills `uid` (`none` when no tag is present).  Returns
the new state and whether `execute_ritual_behavior` was dispatched. -/
def nfc_poll (st : NfcLoopState) (now : Nat) (tag : Option (List Nat)) :
    NfcLoopState × Bool :=
  if now - st.last_nfc_check > 100 then
    let st1 : NfcLoopState := { st with last_nfc_check := now }
    match tag with
    | some uid =>
        if uid.length > 0 then
          let uid_str := uid_to_string uid
          if uid_str ≠ st1.last_uid then
            ({ st1 with last_uid := uid_str }, true)
          else (st1, false)
        else (st1, false)
    | none => ({ st1 with last_uid := "" }, false)
  else (st, false)

/-- Run the NFC half of `loop()` over a sequence of polls, counting how many
polls dispatched the ritual. -/
def nfc_run (st : NfcLoopState) : List (Nat × Option (List Nat)) → NfcLoopState × Nat
  | [] => (st, 0)
  | (now, tag) :: rest =>
      let p := nfc_poll st now tag
      let q := nfc_run p.1 rest
      (q.1, (if p.2 then 1 else 0) + q.2)

/-- The last element of a list of poll instants (the initial reference
instant `c` when the list is empty): the value `last_nfc_check` holds after
polling at each instant in turn. -/
def lastOf (ts : List Nat) (c : Nat) : Nat :=
  ts.foldl (fun _ t => t) c

/-- A list of poll instants each of which clears the 100 ms NFC throttle of
`loop()`: every instant exceeds its predecessor (initially `c`) by more
than 100. -/
def spaced (c : Nat) : List Nat → Bool
  | [] => true
  | t :: ts => decide (c + 100 < t) && spaced t ts

/-! ### Acquisition loop: touch handling (`loop`, lines 377–411 of main.cpp) -/

/-- A touch event queued by the host, with the instant from which
`touch_read` can return it.  `type`: 0 = down, 1 = move, 2 = up. -/
structure TimedTouch where
  time : Nat
  type : Nat
  deriving DecidableEq, Repr

/-- A `touch_read` poll at instant `t` against the pending event queue:
it pops the front event if that event has already arrived, and reports
nothing otherwise. -/
def readAvail (t : Nat) (q : List TimedTouch) : Option TimedTouch × List TimedTouch :=
  match q with
  | [] => (none, [])
  | e :: rest => if e.time ≤ t then (some e, rest) else (none, q)

/-- The long-press detection loop of `loop()` (lines 386–395): starting from
`touch_start = start` with `j` completed 10 ms sleeps, keep sleeping 10 ms and
polling `touch_read` while still touching and `millis − touch_start < 1000`;
a polled touch-up (type 2) clears `still_touching`.  The clock is modelled as
advancing exactly 10 ms per `system_delay(10)`.  Returns `still_touching`
(`true` means the window elapsed, i.e. long-press → menu) and the remaining
queue. -/
def longPressWait (start : Nat) (j : Nat) (q : List TimedTouch) :
    Bool × List TimedTouch :=
  if h : start + 10 * j - start < 1000 then
    match readAvail (start + 10 * (j + 1)) q with
    | (some e, q') =>
        if e.type = 2 then (false, q')
        else longPressWait start (j + 1) q'
    | (none, q') => longPressWait start (j + 1) q'
  else (true, q)
  termination_by 100 - j
  decreasing_by
    all_goals
      simp only [Nat.add_sub_cancel_left] at h
      omega

/-- The touch half of one `loop()` iteration (lines 377–411): one
`touch_read`; a touch-down is processed only when `now - last_touch_time >
500`, in which case `last_touch_time` is updated and the long-press window is
run.  Returns (entered-menu flag, new `last_touch_time`, remaining queue). -/
def touchLoopStep (now : Nat) (last_touch_time : Nat) (q : List TimedTouch) :
    Bool × Nat × List TimedTouch :=
  match readAvail now q with
  | (some e, q') =>
      if e.type = 0 then
        if now - last_touch_time > 500 then
          let (menu, q'') := longPressWait now 0 q'
          (menu, now, q'')
        else (false, last_touch_time, q')
      else (false, last_touch_time, q')
  | (none, q') => (false, last_touch_time, q')

/-- The 500 ms touch-down gate of `loop()` (lines 380–382) applied to a
sequence of touch-downs, each considered at the loop instant it is read
(each processed down is assumed to be a short tap, so that the following
downs reach the gate).  Returns the instants of the processed downs. -/
def processDowns (last_touch_time : Nat) : List Nat → List Nat
  | [] => []
  | t :: ts =>
      if t - last_touch_time > 500 then t :: processDowns t ts
      else processDowns last_touch_time ts

/-! ### Simulation backend (`src/sim/hal-wasm.cpp`) -/

namespace Sim

/-- `nfc_tag_t` as queued by the simulation backend: `uid` holds the
`uid_length` valid bytes, `ndef` the `ndef_length` valid bytes. -/
structure NfcTag where
  uid : List Nat
  ndef : List Nat
  timestamp : Nat
  deriving DecidableEq, Repr

/-- `touch_event_t` as queued by the simulation backend. -/
structure TouchEvent where
  x : Nat
  y : Nat
  type : Nat
  timestamp : Nat
  deriving DecidableEq, Repr

/-- The process-wide mutable state of `src/sim/hal-wasm.cpp`: the two inbound
queues (front of the list = front of the `std::queue`) and the init flags. -/
structure SimState where
  touch_initialized : Bool
  nfc_initialized : Bool
  touch_queue : List TouchEvent
  nfc_queue : List NfcTag
  deriving DecidableEq, Repr

/-- The state at process start: nothing initialized, both queues empty. -/
def initState : SimState :=
  { touch_initialized := false, nfc_initialized := false,
    touch_queue := [], nfc_queue := [] }

/-- The `while (touch_queue.size() > 10) touch_queue.pop();` loop of
`wasm_touch_event`: pop the front while more than 10 events are queued. -/
def trimQueue (q : List TouchEvent) : List TouchEvent :=
  if q.length > 10 then trimQueue q.tail else q
  termination_by q.length
  decreasing_by simp_all [List.length_tail]; omega

/-- `wasm_touch_event` from `src/sim/hal-wasm.cpp`: ignored before
`touch_init`; otherwise enqueue the event and trim the queue to 10. -/
def wasm_touch_event (s : SimState) (x y ty ts : Nat) : SimState :=
  if s.touch_initialized then
    { s with touch_queue :=
        trimQueue (s.touch_queue ++ [{ x := x, y := y, type := ty, timestamp := ts }]) }
  else s

/-- `touch_read` from `src/sim/hal-wasm.cpp`: `none` (C `false`) before
`touch_init` or on an empty queue, otherwise pop and return the front event. -/
def touch_read (s : SimState) : Option TouchEvent × SimState :=
  if s.touch_initialized then
    match s.touch_queue with
    | [] => (none, s)
    | e :: rest => (some e, { s with touch_queue := rest })
  else (none, s)

/-- `wasm_nfc_tag` from `src/sim/hal-wasm.cpp`: ignored before `nfc_init`;
otherwise the uid is truncated to 7 bytes and the ndef payload to 512 bytes,
the queue is emptied, and the single new tag is pushed. -/
def wasm_nfc_tag (s : SimState) (uid ndef : List Nat) (now : Nat) : SimState :=
  if s.nfc_initialized then
    { s with nfc_queue := [{ uid := uid.take 7, ndef := ndef.take 512, timestamp := now }] }
  else s

/-- `wasm_nfc_tag_removed` from `src/sim/hal-wasm.cpp`: empty the NFC queue. -/
def wasm_nfc_tag_removed (s : SimState) : SimState :=
  { s with nfc_queue := [] }

/-- `nfc_tag_present` from `src/sim/hal-wasm.cpp`: the queue is non-empty
(not gated on `nfc_init`). -/
def nfc_tag_present (s : SimState) : Bool :=
  !s.nfc_queue.isEmpty

/-- `nfc_get_uid` from `src/sim/hal-wasm.cpp`: the uid bytes of the front tag
(left in the queue); `[]` (C return value 0) before `nfc_init` or when no tag
is queued. -/
def nfc_get_uid (s : SimState) : List Nat :=
  if s.nfc_initialized then
    match s.nfc_queue with
    | [] => []
    | tag :: _ => tag.uid
  else []

/-- `nfc_read_ndef` from `src/sim/hal-wasm.cpp`: the ndef bytes of the front
tag (left in the queue); `[]` before `nfc_init` or when no tag is queued. -/
def nfc_read_ndef (s : SimState) : List Nat :=
  if s.nfc_initialized then
    match s.nfc_queue with
    | [] => []
    | tag :: _ => tag.ndef
  else []

/-- The operations the host and the firmware can perform against the
simulation backend's queues. -/
inductive Op where
  | touchInit : Op
  | nfcInit : Op
  | touchPush (x y ty ts : Nat) : Op
  | touchRead : Op
  | nfcPush (uid ndef : List Nat) (now : Nat) : Op
  | nfcRemoved : Op
  | nfcGetUid : Op
  | nfcReadNdef : Op
  | nfcPresent : Op
  deriving DecidableEq

/-- Whether an operation is one of the two that replace or remove the queued
tag (`wasm_nfc_tag` / `wasm_nfc_tag_removed`). -/
def Op.changesTag : Op → Bool
  | Op.nfcPush _ _ _ => true
  | Op.nfcRemoved => true
  | _ => false

/-- State transition of the simulation backend under one operation
(read operations keep only their state effect). -/
def step (s : SimState) : Op → SimState
  | Op.touchInit => { s with touch_initialized := true }
  | Op.nfcInit => { s with nfc_initialized := true }
  | Op.touchPush x y ty ts => wasm_touch_event s x y ty ts
  | Op.touchRead => (touch_read s).2
  | Op.nfcPush uid ndef now => wasm_nfc_tag s uid ndef now
  | Op.nfcRemoved => wasm_nfc_tag_removed s
  | Op.nfcGetUid => s
  | Op.nfcReadNdef => s
  | Op.nfcPresent => s

/-- Run a sequence of operations from a state. -/
def run (s : SimState) : List Op → SimState
  | [] => s
  | op :: ops => run (step s op) ops

/-- The queue invariants claimed for the simulation backend: at most 10
queued touch events, at most one queued tag, and every queued tag truncated
to a 7-byte uid and a 512-byte ndef payload. -/
def QueueInv (s : SimState) : Prop :=
  s.touch_queue.length ≤ 10 ∧ s.nfc_queue.length ≤ 1 ∧
    ∀ tag ∈ s.nfc_queue, tag.uid.length ≤ 7 ∧ tag.ndef.length ≤ 512

end Sim

/-! ### Theorems: simulation backend (C8, C9, C10) -/

namespace Sim

theorem trimQueue_length_le (q : List TouchEvent) : (trimQueue q).length ≤ 10 := by
  rw [trimQueue]
  by_cases h : q.length > 10
  · rw [if_pos h]
    exact trimQueue_length_le q.tail
  · rw [if_neg h]
    omega
  termination_by q.length
  decreasing_by simp_all [List.length_tail]; omega

theorem trimQueue_of_length_le (q : List TouchEvent) (h : q.length ≤ 10) :
    trimQueue q = q := by
  rw [trimQueue, if_neg (by omega)]

theorem QueueInv_init : QueueInv initState := by
  refine ⟨by simp [initState], by simp [initState], ?_⟩
  intro tag htag
  simp [initState] at htag

theorem QueueInv_step (s : SimState) (op : Op) (h : QueueInv s) :
    QueueInv (step s op) := by
  obtain ⟨h1, h2, h3⟩ := h
  cases op with
  | touchInit => exact ⟨h1, h2, h3⟩
  | nfcInit => exact ⟨h1, h2, h3⟩
  | touchPush x y ty ts =>
      simp only [step, wasm_touch_event]
      split
      · exact ⟨trimQueue_length_le _, h2, h3⟩
      · exact ⟨h1, h2, h3⟩
  | touchRead =>
      obtain ⟨ti, ni, tq, nq⟩ := s
      cases ti with
      | false => exact ⟨h1, h2, h3⟩
      | true =>
          cases tq with
          | nil => exact ⟨h1, h2, h3⟩
          | cons e rest =>
              refine ⟨?_, h2, h3⟩
              simp only [step, touch_read, if_pos] at h1 ⊢
              simp at h1 ⊢
              omega
  | nfcPush uid ndef now =>
      simp only [step, wasm_nfc_tag]
      split
      · refine ⟨h1, by simp, ?_⟩
        intro tag htag
        simp at htag
        subst htag
        constructor
        · simp
        · simp
      · exact ⟨h1, h2, h3⟩
  | nfcRemoved =>
      refine ⟨h1, by simp [step, wasm_nfc_tag_removed], ?_⟩
      intro tag htag
      simp [step, wasm_nfc_tag_removed] at htag
  | nfcGetUid => exact ⟨h1, h2, h3⟩
  | nfcReadNdef => exact ⟨h1, h2, h3⟩
  | nfcPresent => exact ⟨h1, h2, h3⟩

theorem QueueInv_run (s : SimState) (ops : List Op) (h : QueueInv s) :
    QueueInv (run s ops) := by
  induction ops generalizing s with
  | nil => exact h
  | cons op ops ih => exact ih _ (QueueInv_step s op h)

/-- C8: under every sequence of backend operations from process start, the
touch queue holds at most 10 events (a push onto a full queue dropping the
oldest event), the NFC queue holds at most one tag (a new injection first
empties it), and every queued tag is truncated to at most 7 uid bytes and at
most 512 ndef bytes. -/
theorem sim_queue_invariants :
    (∀ ops : List Op, QueueInv (run initState ops)) ∧
    (∀ (s : SimState) (x y ty ts : Nat), s.touch_initialized = true →
      s.touch_queue.length = 10 →
      (wasm_touch_event s x y ty ts).touch_queue =
        s.touch_queue.tail ++ [{ x := x, y := y, type := ty, timestamp := ts }]) ∧
    (∀ (s : SimState) (uid ndef : List Nat) (now : Nat), s.nfc_initialized = true →
      (wasm_nfc_tag s uid ndef now).nfc_queue =
        [{ uid := uid.take 7, ndef := ndef.take 512, timestamp := now }]) := by
  refine ⟨fun ops => QueueInv_run _ ops QueueInv_init, ?_, ?_⟩
  · intro s x y ty ts hinit hlen
    obtain ⟨ti, ni, tq, nq⟩ := s
    cases tq with
    | nil => simp at hlen
    | cons e rest =>
        simp only at hinit hlen ⊢
        subst hinit
        simp only [wasm_touch_event, if_pos]
        rw [trimQueue, if_pos (by simp_all)]
        simp only [List.cons_append, List.tail_cons]
        exact trimQueue_of_length_le _ (by simp_all)
  · intro s uid ndef now hinit
    simp [wasm_nfc_tag, hinit]

/-- A backend state with a full (10-event) touch queue, used as witness input. -/
def fullTouchState : SimState :=
  { touch_initialized := true
    nfc_initialized := false
    touch_queue := (List.range 10).map (fun i => { x := i, y := 0, type := 0, timestamp := 0 })
    nfc_queue := [] }

/-- A backend state with the NFC reader initialized and nothing queued. -/
def nfcReadyState : SimState :=
  { touch_initialized := false
    nfc_initialized := true
    touch_queue := []
    nfc_queue := [] }

/-- C8 witness: concrete instances of the conditional parts of
`sim_queue_invariants`. -/
theorem sim_queue_invariants_witness :
    (wasm_touch_event fullTouchState 5 6 0 7).touch_queue =
      fullTouchState.touch_queue.tail ++ [{ x := 5, y := 6, type := 0, timestamp := 7 }] ∧
    (wasm_nfc_tag nfcReadyState (List.range 9) (List.range 600) 3).nfc_queue =
      [{ uid := (List.range 9).take 7, ndef := (List.range 600).take 512, timestamp := 3 }] :=
  ⟨sim_queue_invariants.2.1 fullTouchState 5 6 0 7 rfl (by decide),
   sim_queue_invariants.2.2 nfcReadyState (List.range 9) (List.range 600) 3 rfl⟩

/-- C9: in the simulation backend, `touch_read` reports no event both before
`touch_init` and on an empty queue, and `nfc_get_uid` reports length 0 both
before `nfc_init` and with no queued tag, so the return value cannot
distinguish "uninitialized" from "no data available". -/
theorem sim_uninitialized_indistinguishable :
    (∀ s : SimState, s.touch_initialized = false → (touch_read s).1 = none) ∧
    (∀ s : SimState, s.touch_queue = [] → (touch_read s).1 = none) ∧
    (∀ s : SimState, s.nfc_initialized = false → nfc_get_uid s = []) ∧
    (∀ s : SimState, s.nfc_queue = [] → nfc_get_uid s = []) := by
  refine ⟨?_, ?_, ?_, ?_⟩
  · intro s h
    simp [touch_read, h]
  · intro s h
    by_cases hi : s.touch_initialized <;> simp [touch_read, h, hi]
  · intro s h
    simp [nfc_get_uid, h]
  · intro s h
    by_cases hi : s.nfc_initialized <;> simp [nfc_get_uid, h, hi]

/-- An uninitialized backend state that nevertheless has queued data. -/
def uninitLoadedState : SimState :=
  { touch_initialized := false
    nfc_initialized := false
    touch_queue := [{ x := 1, y := 2, type := 0, timestamp := 3 }]
    nfc_queue := [{ uid := [1], ndef := [], timestamp := 0 }] }

/-- An initialized backend state with empty queues. -/
def initEmptyState : SimState :=
  { touch_initialized := true
    nfc_initialized := true
    touch_queue := []
    nfc_queue := [] }

/-- C9 witness: the four cases of `sim_uninitialized_indistinguishable` at
concrete states. -/
theorem sim_uninitialized_indistinguishable_witness :
    (touch_read uninitLoadedState).1 = none ∧
    (touch_read initEmptyState).1 = none ∧
    nfc_get_uid uninitLoadedState = [] ∧
    nfc_get_uid initEmptyState = [] :=
  ⟨sim_uninitialized_indistinguishable.1 uninitLoadedState rfl,
   sim_uninitialized_indistinguishable.2.1 initEmptyState rfl,
   sim_uninitialized_indistinguishable.2.2.1 uninitLoadedState rfl,
   sim_uninitialized_indistinguishable.2.2.2 initEmptyState rfl⟩

theorem step_preserves_tag (s : SimState) (op : Op) (h : op.changesTag = false) :
    (step s op).nfc_queue = s.nfc_queue ∧
    (s.nfc_initialized = true → (step s op).nfc_initialized = true) := by
  cases op with
  | touchInit => exact ⟨rfl, fun h => h⟩
  | nfcInit => exact ⟨rfl, fun _ => rfl⟩
  | touchPush x y ty ts =>
      constructor
      · simp only [step, wasm_touch_event]
        split <;> rfl
      · simp only [step, wasm_touch_event]
        split <;> exact fun h => h
  | touchRead =>
      constructor
      · simp only [step, touch_read]
        split
        · split <;> rfl
        · rfl
      · simp only [step, touch_read]
        split
        · split <;> exact fun h => h
        · exact fun h => h
  | nfcPush uid ndef now => simp [Op.changesTag] at h
  | nfcRemoved => simp [Op.changesTag] at h
  | nfcGetUid => exact ⟨rfl, fun h => h⟩
  | nfcReadNdef => exact ⟨rfl, fun h => h⟩
  | nfcPresent => exact ⟨rfl, fun h => h⟩

/-- C10: once a tag is queued (and the reader initialized), any sequence of
operations that neither injects a new tag nor removes the tag leaves the
queued tag untouched: `nfc_tag_present` stays true and `nfc_get_uid` /
`nfc_read_ndef` keep returning the same bytes — the reads do not consume the
tag. -/
theorem sim_nfc_nonconsuming_reads (s : SimState) (tag : NfcTag) (ops : List Op)
    (hinit : s.nfc_initialized = true) (hq : s.nfc_queue = [tag])
    (hops : ∀ op ∈ ops, op.changesTag = false) :
    (run s ops).nfc_queue = [tag] ∧
    nfc_tag_present (run s ops) = true ∧
    nfc_get_uid (run s ops) = tag.uid ∧
    nfc_read_ndef (run s ops) = tag.ndef := by
  have key : (run s ops).nfc_queue = [tag] ∧ (run s ops).nfc_initialized = true := by
    induction ops generalizing s with
    | nil => exact ⟨hq, hinit⟩
    | cons op ops ih =>
        have hop := hops op (by simp)
        have hpres := step_preserves_tag s op hop
        exact ih (step s op) (hpres.2 hinit) (hpres.1.trans hq)
          (fun o ho => hops o (by simp [ho]))
  obtain ⟨kq, ki⟩ := key
  refine ⟨kq, ?_, ?_, ?_⟩
  · simp [nfc_tag_present, kq]
  · simp [nfc_get_uid, kq, ki]
  · simp [nfc_read_ndef, kq, ki]

/-- A backend state with both halves initialized and one queued tag. -/
def taggedState : SimState :=
  { touch_initialized := true
    nfc_initialized := true
    touch_queue := []
    nfc_queue := [{ uid := [170, 187], ndef := [1, 2, 3], timestamp := 0 }] }

/-- A sequence of read and touch operations, none of which injects or removes
a tag. -/
def readOnlyOps : List Op :=
  [Op.nfcGetUid, Op.nfcPresent, Op.touchPush 1 2 0 3, Op.touchRead,
   Op.nfcReadNdef, Op.nfcGetUid]

/-- C10 witness: `sim_nfc_nonconsuming_reads` at a concrete state with a
queued tag and a concrete sequence of read and touch operations. -/
theorem sim_nfc_nonconsuming_reads_witness :
    (run taggedState readOnlyOps).nfc_queue =
      [{ uid := [170, 187], ndef := [1, 2, 3], timestamp := 0 }] ∧
    nfc_tag_present (run taggedState readOnlyOps) = true ∧
    nfc_get_uid (run taggedState readOnlyOps) = [170, 187] ∧
    nfc_read_ndef (run taggedState readOnlyOps) = [1, 2, 3] :=
  sim_nfc_nonconsuming_reads taggedState _ readOnlyOps rfl rfl (by decide)

end Sim

/-! ### Theorems: ritual dispatch engine (C7) -/

theorem cons_append_pre (e : Effect) (X Y : List Effect) :
    ∃ pre, e :: (X ++ Y) = pre ++ Y :=
  ⟨e :: X, by simp⟩

theorem save_moment_ready (cfg : RitualConfig) (uid_str : String) (clk : Nat → Nat)
    (ok : Bool) (st : Storage) :
    ∃ pre, (execute_save_moment cfg uid_str clk ok st).1 = pre ++ show_ready_screen cfg.label := by
  simp only [execute_save_moment]
  exact cons_append_pre _ _ _

theorem send_tip_ready (cfg : RitualConfig) (uid_str : String) (clk : Nat → Nat)
    (ok : Bool) (st : Storage) :
    ∃ pre, (execute_send_tip cfg uid_str clk ok st).1 = pre ++ show_ready_screen cfg.label := by
  simp only [execute_send_tip]
  exact cons_append_pre _ _ _

theorem vote_ready (cfg : RitualConfig) (uid_str : String) (option_a : Bool) (clk : Nat → Nat)
    (ok : Bool) (st : Storage) :
    ∃ pre, (execute_vote cfg uid_str option_a clk ok st).1 = pre ++ show_ready_screen cfg.label := by
  simp only [execute_vote]
  exact cons_append_pre _ _ _

theorem increment_counter_ready (cfg : RitualConfig) (uid_str : String) (clk : Nat → Nat)
    (ok : Bool) (st : Storage) :
    ∃ pre, (execute_increment_counter cfg uid_str clk ok st).1 =
      pre ++ show_ready_screen cfg.label := by
  simp only [execute_increment_counter]
  exact cons_append_pre _ _ _

theorem trigger_light_ready (cfg : RitualConfig) (uid_str : String) (clk : Nat → Nat)
    (ok : Bool) (st : Storage) :
    ∃ pre, (execute_trigger_light cfg uid_str clk ok st).1 =
      pre ++ show_ready_screen cfg.label := by
  simp only [execute_trigger_light]
  exact cons_append_pre _ _ _

theorem unlock_content_ready (cfg : RitualConfig) (uid_str : String) (clk : Nat → Nat)
    (ok : Bool) (st : Storage) :
    ∃ pre, (execute_unlock_content cfg uid_str clk ok st).1 =
      pre ++ show_ready_screen cfg.label := by
  simp only [execute_unlock_content]
  exact cons_append_pre _ _ _

/-- C7: for every behavior value (any integer the configurator may cast into
the enum) and any storage-save outcomes, `execute_ritual_behavior` terminates
with the ready screen as the final display block; its effect trace does not
depend on whether the storage saves succeed; and any behavior value outside
the seven handled variants renders the explicit "Unknown behavior" status,
performs no storage save, and still ends at the ready screen. -/
theorem dispatch_always_ready :
    (∀ (cfg : RitualConfig) (uid_str : String) (clk : Nat → Nat) (ok : Bool) (st : Storage),
      ∃ pre, (execute_ritual_behavior cfg uid_str clk ok st).1 =
        pre ++ show_ready_screen cfg.label) ∧
    (∀ (cfg : RitualConfig) (uid_str : String) (clk : Nat → Nat) (st : Storage) (ok ok' : Bool),
      (execute_ritual_behavior cfg uid_str clk ok st).1 =
        (execute_ritual_behavior cfg uid_str clk ok' st).1) ∧
    (∀ (cfg : RitualConfig) (uid_str : String) (clk : Nat → Nat) (ok : Bool) (st : Storage),
      cfg.behavior ∉ [0, 1, 2, 3, 4, 5, 7] →
      (execute_ritual_behavior cfg uid_str clk ok st).1 =
        show_status_message cfg.label "Unknown behavior" ++ [Effect.delay 1000] ++
          show_ready_screen cfg.label ∧
      savesOf (execute_ritual_behavior cfg uid_str clk ok st).1 = []) := by
  refine ⟨?_, ?_, ?_⟩
  · intro cfg uid_str clk ok st
    unfold execute_ritual_behavior
    split_ifs
    · exact save_moment_ready cfg uid_str clk ok st
    · exact send_tip_ready cfg uid_str clk ok st
    · exact vote_ready cfg uid_str true clk ok st
    · exact vote_ready cfg uid_str false clk ok st
    · exact increment_counter_ready cfg uid_str clk ok st
    · exact trigger_light_ready cfg uid_str clk ok st
    · exact unlock_content_ready cfg uid_str clk ok st
    · exact ⟨_, rfl⟩
  · intro cfg uid_str clk st ok ok'
    unfold execute_ritual_behavior
    split_ifs <;> rfl
  · intro cfg uid_str clk ok st hb
    simp only [List.mem_cons, List.not_mem_nil, or_false] at hb
    push_neg at hb
    obtain ⟨n0, n1, n2, n3, n4, n5, n7⟩ := hb
    unfold execute_ritual_behavior
    rw [if_neg n0, if_neg n1, if_neg n2, if_neg n3, if_neg n7, if_neg n5, if_neg n4]
    refine ⟨rfl, ?_⟩
    simp [savesOf, show_status_message, show_ready_screen]

/-- A configuration whose behavior value 8 (`RITUAL_CUSTOM`) falls to the
`default` arm of the dispatch switch. -/
def customConfig : RitualConfig :=
  { default_config with behavior := 8 }

/-- C7 witness: the unknown-behavior part of `dispatch_always_ready` at the
concrete behavior value 8. -/
theorem dispatch_always_ready_witness :
    (execute_ritual_behavior customConfig "AABB" (fun _ => 0) true []).1 =
      show_status_message customConfig.label "Unknown behavior" ++ [Effect.delay 1000] ++
        show_ready_screen customConfig.label ∧
    savesOf (execute_ritual_behavior customConfig "AABB" (fun _ => 0) true []).1 = [] :=
  dispatch_always_ready.2.2 customConfig "AABB" (fun _ => 0) true [] (by decide)

/-! ### Theorems: persisted record layout (C6, C3) -/

theorem infixAppendL {α : Type} {p a b : List α} (h : p <:+: a) : p <:+: a ++ b := by
  obtain ⟨s, t, rfl⟩ := h
  exact ⟨s, t ++ b, by simp⟩

theorem infixAppendR {α : Type} {p a b : List α} (h : p <:+: b) : p <:+: a ++ b := by
  obtain ⟨s, t, rfl⟩ := h
  exact ⟨a ++ s, t, by simp⟩

theorem strBytes_append (s t : String) : strBytes (s ++ t) = strBytes s ++ strBytes t := by
  simp [strBytes]

/-- C6 counterexample: the record written by `execute_save_moment` (here for
uid "AABB", the default configuration, and clock value 0) does not contain
the spec's field name `node_id` anywhere — the code writes the field name
`node` instead. -/
theorem record_field_names_cex :
    savesOf (execute_save_moment default_config "AABB" (fun _ => 0) true []).1 =
      [("moment_0",
        strBytes "\x7b\"uid\":\"AABB\",\"node\":\"default-node\",\"timestamp\":0,\"verified\":true\x7d")] ∧
    ¬ strBytes "node_id" <:+:
        strBytes "\x7b\"uid\":\"AABB\",\"node\":\"default-node\",\"timestamp\":0,\"verified\":true\x7d" := by
  constructor
  · decide
  · decide

/-- C6 amended: every record written by `execute_save_moment` carries the
field names `uid`, `node`, `timestamp` and `verified:true`, and every record
written by `execute_vote` (either option) carries the field names `uid`,
`option`, `vote_option`, `node` and `timestamp`, in the stored UTF-8 text. -/
theorem record_field_names (cfg : RitualConfig) (uid_str : String) (clk : Nat → Nat)
    (ok : Bool) (st : Storage) :
    (∃ key data, savesOf (execute_save_moment cfg uid_str clk ok st).1 = [(key, data)] ∧
      strBytes "\"uid\":" <:+: data ∧ strBytes "\"node\":" <:+: data ∧
      strBytes "\"timestamp\":" <:+: data ∧ strBytes "\"verified\":true" <:+: data) ∧
    (∀ option_a : Bool, ∃ key data,
      savesOf (execute_vote cfg uid_str option_a clk ok st).1 = [(key, data)] ∧
      strBytes "\"uid\":" <:+: data ∧ strBytes "\"option\":" <:+: data ∧
      strBytes "\"vote_option\":" <:+: data ∧ strBytes "\"node\":" <:+: data ∧
      strBytes "\"timestamp\":" <:+: data) := by
  constructor
  · refine ⟨"moment_" ++ toString (clk 1),
      strBytes ("\x7b\"uid\":\"" ++ uid_str ++ "\",\"node\":\"" ++ cfg.node_id ++
        "\",\"timestamp\":" ++ toString (clk 0) ++ ",\"verified\":true\x7d"),
      ?_, ?_, ?_, ?_, ?_⟩
    · simp [execute_save_moment, savesOf, show_status_message, show_ready_screen]
    · simp only [strBytes_append]
      exact infixAppendL (infixAppendL (infixAppendL (infixAppendL (infixAppendL
        (infixAppendL (by decide))))))
    · simp only [strBytes_append]
      exact infixAppendL (infixAppendL (infixAppendL (infixAppendL
        (infixAppendR (by decide)))))
    · simp only [strBytes_append]
      exact infixAppendL (infixAppendL (infixAppendR (by decide)))
    · simp only [strBytes_append]
      exact infixAppendR (by decide)
  · intro option_a
    refine ⟨"vote_" ++ toString (clk 1),
      strBytes ("\x7b\"uid\":\"" ++ uid_str ++ "\",\"option\":\"" ++
        (if option_a then "A" else "B") ++ "\",\"vote_option\":\"" ++ cfg.vote_option ++
        "\",\"node\":\"" ++ cfg.node_id ++ "\",\"timestamp\":" ++ toString (clk 0) ++ "\x7d"),
      ?_, ?_, ?_, ?_, ?_, ?_⟩
    · cases option_a <;>
        simp [execute_vote, savesOf, show_status_message, show_ready_screen]
    · simp only [strBytes_append]
      exact infixAppendL (infixAppendL (infixAppendL (infixAppendL (infixAppendL
        (infixAppendL (infixAppendL (infixAppendL (infixAppendL
          (infixAppendL (by decide))))))))))
    · simp only [strBytes_append]
      exact infixAppendL (infixAppendL (infixAppendL (infixAppendL (infixAppendL
        (infixAppendL (infixAppendL (infixAppendL (infixAppendR (by decide)))))))))
    · simp only [strBytes_append]
      exact infixAppendL (infixAppendL (infixAppendL (infixAppendL (infixAppendL
        (infixAppendL (infixAppendR (by decide)))))))
    · simp only [strBytes_append]
      exact infixAppendL (infixAppendL (infixAppendL (infixAppendL
        (infixAppendR (by decide)))))
    · simp only [strBytes_append]
      exact infixAppendL (infixAppendL (infixAppendR (by decide)))

/-- C3: under the default configuration installed by `setup` (SaveMoment,
node_id "default-node", label "Default Ritual"), an activation with uid
bytes [0xAA, 0xBB] performs exactly one storage save, whose key is
"moment_<t>" for the millisecond timestamp t and whose payload contains
`"uid":"AABB"` and `"verified":true`; the display sequence is
clear → status "Saving moment..." → clear → status "Moment saved!" → ready
screen showing the label "Default Ritual". -/
theorem save_moment_default_scenario (clk : Nat → Nat) (ok : Bool) (st : Storage) :
    ∃ data : List Nat,
      savesOf (execute_ritual_behavior default_config (uid_to_string [170, 187]) clk ok st).1 =
        [("moment_" ++ toString (clk 1), data)] ∧
      strBytes "\"uid\":\"AABB\"" <:+: data ∧
      strBytes "\"verified\":true" <:+: data ∧
      displayOf (execute_ritual_behavior default_config (uid_to_string [170, 187]) clk ok st).1 =
        show_status_message "Default Ritual" "Saving moment..." ++
          show_status_message "Default Ritual" "Moment saved!" ++
          show_ready_screen "Default Ritual" := by
  have hu : uid_to_string [170, 187] = "AABB" := by decide
  rw [hu]
  have hb : execute_ritual_behavior default_config "AABB" clk ok st =
      execute_save_moment default_config "AABB" clk ok st := by
    unfold execute_ritual_behavior
    have h0 : default_config.behavior = 0 := rfl
    rw [if_pos h0]
  rw [hb]
  refine ⟨strBytes ("\x7b\"uid\":\"" ++ "AABB" ++ "\",\"node\":\"" ++ "default-node" ++
    "\",\"timestamp\":" ++ toString (clk 0) ++ ",\"verified\":true\x7d"), ?_, ?_, ?_, ?_⟩
  · simp [execute_save_moment, savesOf, show_status_message, show_ready_screen, default_config]
  · simp only [strBytes_append]
    exact infixAppendL (infixAppendL (infixAppendL (infixAppendL (by decide))))
  · simp only [strBytes_append]
    exact infixAppendR (by decide)
  · simp [execute_save_moment, displayOf, show_status_message, show_ready_screen, default_config]

/-! ### Theorems: counter behavior (C2) -/

theorem Storage.lookup_store_self (st : Storage) (k : String) (v : List Nat) :
    (st.store k v).lookup k = some v := by
  induction st with
  | nil => simp [Storage.store, Storage.lookup]
  | cons kv rest ih =>
      obtain ⟨k', v'⟩ := kv
      by_cases h : k' = k
      · simp [Storage.store, Storage.lookup, h]
      · simp [Storage.store, Storage.lookup, h, ih]

theorem beDecode_encodeBE4 (n : Nat) (h : n < 2 ^ 32) : beDecode (encodeBE4 n) = n := by
  simp only [beDecode, encodeBE4, List.map_cons, List.map_nil, List.foldl_cons, List.foldl_nil]
  norm_num
  omega

/-- Consecutive IncrementCounter activations: `incRun cfg uid clk n st` runs
`execute_ritual_behavior` `n` times (with every storage save succeeding),
threading the storage state. -/
def incRun (cfg : RitualConfig) (uid_str : String) (clk : Nat → Nat) :
    Nat → Storage → Storage
  | 0, st => st
  | n + 1, st => incRun cfg uid_str clk n (execute_ritual_behavior cfg uid_str clk true st).2

theorem dispatch_increment (cfg : RitualConfig) (uid_str : String) (clk : Nat → Nat)
    (ok : Bool) (st : Storage) (hb : cfg.behavior = 7) :
    execute_ritual_behavior cfg uid_str clk ok st =
      execute_increment_counter cfg uid_str clk ok st := by
  unfold execute_ritual_behavior
  rw [hb]
  norm_num

theorem increment_counter_step (cfg : RitualConfig) (uid_str : String) (clk : Nat → Nat)
    (st : Storage) (k : Nat) (hk : k < 2 ^ 32)
    (h : st.lookup cfg.counter_name = some (encodeBE4 k) ∨
         (k = 0 ∧ st.lookup cfg.counter_name = none)) :
    (execute_increment_counter cfg uid_str clk true st).2.lookup cfg.counter_name =
      some (encodeBE4 ((k + 1) % 2 ^ 32)) := by
  have hload : beDecode (load4 st cfg.counter_name) = k := by
    rcases h with h | ⟨rfl, h⟩
    · simp only [load4, h, Option.getD_some]
      have : (encodeBE4 k).take 4 = encodeBE4 k := by
        simp [encodeBE4]
      rw [this]
      have hlen : (encodeBE4 k).length = 4 := by simp [encodeBE4]
      rw [hlen]
      simp only [Nat.sub_self, List.replicate_zero, List.append_nil]
      exact beDecode_encodeBE4 k hk
    · simp only [load4, h, Option.getD_none, List.take_nil, List.nil_append]
      simp [beDecode]
  simp only [execute_increment_counter, hload]
  exact Storage.lookup_store_self st cfg.counter_name _

theorem incRun_from (cfg : RitualConfig) (uid_str : String) (clk : Nat → Nat) :
    ∀ (n k : Nat) (st : Storage), 1 ≤ k → k + n < 2 ^ 32 →
      st.lookup cfg.counter_name = some (encodeBE4 k) →
      cfg.behavior = 7 →
      (incRun cfg uid_str clk n st).lookup cfg.counter_name = some (encodeBE4 (k + n)) := by
  intro n
  induction n with
  | zero => intro k st _ _ h _; simpa using h
  | succ n ih =>
      intro k st hk hlt h hb
      have hstep := increment_counter_step cfg uid_str clk st k (by omega) (Or.inl h)
      rw [Nat.mod_eq_of_lt (by omega)] at hstep
      have : incRun cfg uid_str clk (n + 1) st =
          incRun cfg uid_str clk n (execute_ritual_behavior cfg uid_str clk true st).2 := rfl
      rw [this, dispatch_increment cfg uid_str clk true st hb]
      have := ih (k + 1) (execute_increment_counter cfg uid_str clk true st).2
        (by omega) (by omega) hstep hb
      simpa [Nat.add_assoc, Nat.add_comm, Nat.add_left_comm] using this

/-- C2: with the behavior configured as IncrementCounter, starting from a
storage in which `counter_name` is absent, N consecutive activations
(1 ≤ N < 2^32, every save succeeding) leave exactly the 4-byte big-endian
encoding of N stored under `counter_name`: each activation loads the 4-byte
big-endian counter (0 when absent), adds exactly 1, and stores it back under
the same key. -/
theorem increment_counter_accumulates (cfg : RitualConfig) (uid_str : String)
    (clk : Nat → Nat) (N : Nat) (h1 : 1 ≤ N) (h2 : N < 2 ^ 32) (st : Storage)
    (habs : st.lookup cfg.counter_name = none) (hb : cfg.behavior = 7) :
    (incRun cfg uid_str clk N st).lookup cfg.counter_name = some (encodeBE4 N) := by
  obtain ⟨M, rfl⟩ : ∃ M, N = M + 1 := ⟨N - 1, by omega⟩
  have hstep := increment_counter_step cfg uid_str clk st 0 (by norm_num) (Or.inr ⟨rfl, habs⟩)
  rw [Nat.mod_eq_of_lt (by norm_num)] at hstep
  have hrw : incRun cfg uid_str clk (M + 1) st =
      incRun cfg uid_str clk M (execute_ritual_behavior cfg uid_str clk true st).2 := rfl
  rw [hrw, dispatch_increment cfg uid_str clk true st hb]
  have := incRun_from cfg uid_str clk M 1 (execute_increment_counter cfg uid_str clk true st).2
    (by omega) (by omega) (by simpa using hstep) hb
  simpa [Nat.add_comm] using this

/-- A configuration whose behavior value 7 selects IncrementCounter. -/
def counterConfig : RitualConfig :=
  { default_config with behavior := 7 }

/-- C2 witness: three activations from an absent key store the big-endian
bytes [0,0,0,3]. -/
theorem increment_counter_accumulates_witness :
    (incRun counterConfig "AABB" (fun _ => 0) 3 []).lookup counterConfig.counter_name =
      some (encodeBE4 3) :=
  increment_counter_accumulates counterConfig "AABB" (fun _ => 0) 3 (by norm_num)
    (by norm_num) [] rfl rfl

/-! ### Theorems: touch-down debounce gate (C5) -/

theorem processDowns_mem_gt (ts : List Nat) :
    ∀ (c : Nat), ∀ x ∈ processDowns c ts, c + 500 < x := by
  induction ts with
  | nil => intro c x hx; simp [processDowns] at hx
  | cons t ts ih =>
      intro c x hx
      by_cases h : t - c > 500
      · rw [processDowns, if_pos h, List.mem_cons] at hx
        rcases hx with rfl | hx
        · omega
        · have := ih t x hx
          omega
      · rw [processDowns, if_neg h] at hx
        exact ih c x hx

/-- C5 counterexample: the touch-downs polled at 900 and 1150 lie within
500 ms of each other, yet it is the second of them (1150) that the gate
processes (the earlier processed down at 600 blocked 900 but not 1150) — so
"for any two touch-down events within 500 ms only the first is processed" is
false on the code. -/
theorem touch_down_spacing_cex :
    1150 - 900 ≤ 500 ∧
    900 ∉ processDowns 0 [600, 900, 1150] ∧
    1150 ∈ processDowns 0 [600, 900, 1150] := by
  refine ⟨by norm_num, ?_, ?_⟩ <;> decide

/-- C5 amended: any touch-down arriving within 500 ms of the last processed
touch-down is ignored and leaves the last-processed-touch time unchanged;
consequently the processed touch-downs are pairwise spaced more than 500 ms
apart. -/
theorem touch_down_min_spacing :
    (∀ (c : Nat) (ts : List Nat),
      List.Chain' (fun a b => 500 < b - a) (processDowns c ts)) ∧
    (∀ (c t : Nat) (ts : List Nat), t - c ≤ 500 →
      processDowns c (t :: ts) = processDowns c ts) := by
  constructor
  · intro c ts
    induction ts generalizing c with
    | nil => simp [processDowns]
    | cons t ts ih =>
        by_cases h : t - c > 500
        · rw [processDowns, if_pos h]
          rw [List.chain'_cons']
          refine ⟨?_, ih t⟩
          intro y hy
          have hmem : y ∈ processDowns t ts := List.mem_of_mem_head? hy
          have := processDowns_mem_gt ts t y hmem
          omega
        · rw [processDowns, if_neg h]
          exact ih c
  · intro c t ts h
    rw [processDowns, if_neg (by omega)]

/-- C5 witness: `touch_down_min_spacing` at the concrete run used in the
counterexample, and at a concrete ignored touch-down. -/
theorem touch_down_min_spacing_witness :
    List.Chain' (fun a b => 500 < b - a) (processDowns 0 [600, 900, 1150]) ∧
    processDowns 600 (900 :: [1150]) = processDowns 600 [1150] :=
  ⟨touch_down_min_spacing.1 0 [600, 900, 1150],
   touch_down_min_spacing.2 600 900 [1150] (by norm_num)⟩

/-! ### Theorems: long-press detection (C4) -/

theorem lpw_up_front (start : Nat) (e : TimedTouch) (rest : List TimedTouch)
    (he : e.type = 2) (ht : e.time ≤ start + 1000) :
    ∀ (m j : Nat), 100 - j = m → 10 * j < 1000 →
      (longPressWait start j (e :: rest)).1 = false := by
  intro m
  induction m with
  | zero => intro j hm hj; omega
  | succ m ih =>
      intro j hm hj
      rw [longPressWait, dif_pos (by simpa [Nat.add_sub_cancel_left] using hj)]
      by_cases hav : e.time ≤ start + 10 * (j + 1)
      · simp only [readAvail, if_pos hav, if_pos he]
      · simp only [readAvail, if_neg hav]
        exact ih (j + 1) (by omega) (by omega)

theorem lpw_no_up (start : Nat) :
    ∀ (m j : Nat) (q : List TimedTouch), 100 - j = m →
      (∀ e ∈ q, e.type = 2 → start + 1000 < e.time) →
      (longPressWait start j q).1 = true := by
  intro m
  induction m with
  | zero =>
      intro j q hm hq
      rw [longPressWait, dif_neg (by simp only [Nat.add_sub_cancel_left]; omega)]
  | succ m ih =>
      intro j q hm hq
      rw [longPressWait]
      by_cases hj : start + 10 * j - start < 1000
      · rw [dif_pos hj]
        rw [Nat.add_sub_cancel_left] at hj
        cases q with
        | nil =>
            simp only [readAvail]
            exact ih (j + 1) [] (by omega) (by simp)
        | cons e rest =>
            by_cases hav : e.time ≤ start + 10 * (j + 1)
            · have hne : ¬ e.type = 2 := by
                intro h2
                have := hq e (by simp) h2
                omega
              simp only [readAvail, if_pos hav, if_neg hne]
              exact ih (j + 1) rest (by omega) (fun x hx h2 => hq x (by simp [hx]) h2)
            · simp only [readAvail, if_neg hav]
              exact ih (j + 1) (e :: rest) (by omega) hq
      · rw [dif_neg hj]

/-- C4: for a processed touch-down (one that passes the 500 ms gate), if the
matching touch-up is the next queued event and becomes readable within
1000 ms of the processing instant, the menu is never entered; if no touch-up
becomes readable within that 1000 ms window, the menu is always entered. -/
theorem touch_long_press_menu :
    (∀ (now lt : Nat) (d u : TimedTouch) (rest : List TimedTouch),
      d.type = 0 → d.time ≤ now → 500 < now - lt →
      u.type = 2 → u.time ≤ now + 1000 →
      (touchLoopStep now lt (d :: u :: rest)).1 = false) ∧
    (∀ (now lt : Nat) (d : TimedTouch) (rest : List TimedTouch),
      d.type = 0 → d.time ≤ now → 500 < now - lt →
      (∀ e ∈ rest, e.type = 2 → now + 1000 < e.time) →
      (touchLoopStep now lt (d :: rest)).1 = true) := by
  constructor
  · intro now lt d u rest hd hdt hgate hu hut
    have hw := lpw_up_front now u rest hu hut 100 0 rfl (by norm_num)
    rcases hlp : longPressWait now 0 (u :: rest) with ⟨menu, q2⟩
    rw [hlp] at hw
    simp only [touchLoopStep, readAvail, if_pos hdt, if_pos hd, if_pos hgate, hlp]
    exact hw
  · intro now lt d rest hd hdt hgate hrest
    have hw := lpw_no_up now 100 0 rest rfl hrest
    rcases hlp : longPressWait now 0 rest with ⟨menu, q2⟩
    rw [hlp] at hw
    simp only [touchLoopStep, readAvail, if_pos hdt, if_pos hd, if_pos hgate, hlp]
    exact hw

/-- A touch-down polled at instant 600. -/
def tapDown : TimedTouch := { time := 600, type := 0 }

/-- A touch-up that becomes readable at instant 700. -/
def tapUp : TimedTouch := { time := 700, type := 2 }

/-- C4 witness: a short tap (up readable 100 ms in) does not enter the menu;
a touch-down with no queued touch-up enters the menu. -/
theorem touch_long_press_menu_witness :
    (touchLoopStep 600 0 [tapDown, tapUp]).1 = false ∧
    (touchLoopStep 600 0 [tapDown]).1 = true :=
  ⟨touch_long_press_menu.1 600 0 tapDown tapUp [] rfl (by decide) (by norm_num) rfl
     (by decide),
   touch_long_press_menu.2 600 0 tapDown [] rfl (by decide) (by norm_num) (by simp)⟩

/-! ### Theorems: NFC presence debounce (C1) -/

theorem uid_to_string_ne_empty (A : List Nat) (h : 0 < A.length) :
    uid_to_string A ≠ "" := by
  cases A with
  | nil => simp at h
  | cons b bs =>
      simp only [uid_to_string, byteToHex, List.foldr_cons, ne_eq, String.ext_iff]
      simp

theorem nfc_poll_not_due (st : NfcLoopState) (now : Nat) (tag : Option (List Nat))
    (h : ¬ now - st.last_nfc_check > 100) :
    nfc_poll st now tag = (st, false) := by
  simp [nfc_poll, h]

theorem nfc_poll_same (st : NfcLoopState) (now : Nat) (A : List Nat)
    (heff : now - st.last_nfc_check > 100) (hsame : st.last_uid = uid_to_string A) :
    nfc_poll st now (some A) = ({ st with last_nfc_check := now }, false) := by
  by_cases hlen : A.length > 0
  · simp [nfc_poll, heff, hlen, hsame]
  · simp [nfc_poll, heff, hlen]

theorem nfc_poll_new (st : NfcLoopState) (now : Nat) (A : List Nat)
    (heff : now - st.last_nfc_check > 100) (hlen : A.length > 0)
    (hne : st.last_uid ≠ uid_to_string A) :
    nfc_poll st now (some A) =
      ({ last_nfc_check := now, last_uid := uid_to_string A }, true) := by
  simp [nfc_poll, heff, hlen, hne.symm]

theorem nfc_poll_clear (st : NfcLoopState) (now : Nat)
    (heff : now - st.last_nfc_check > 100) :
    nfc_poll st now none = ({ last_nfc_check := now, last_uid := "" }, false) := by
  simp [nfc_poll, heff]

theorem nfc_run_suppress (A : List Nat) :
    ∀ (ts : List Nat) (st : NfcLoopState), st.last_uid = uid_to_string A →
      (nfc_run st (ts.map (fun t => (t, some A)))).2 = 0 ∧
      (nfc_run st (ts.map (fun t => (t, some A)))).1.last_uid = uid_to_string A := by
  intro ts
  induction ts with
  | nil => intro st h; exact ⟨rfl, h⟩
  | cons t ts ih =>
      intro st h
      by_cases heff : t - st.last_nfc_check > 100
      · have hp := nfc_poll_same st t A heff h
        have ih' := ih { st with last_nfc_check := t } h
        simp only [List.map_cons, nfc_run, hp]
        simpa using ih'
      · have hp := nfc_poll_not_due st t (some A) heff
        have ih' := ih st h
        simp only [List.map_cons, nfc_run, hp]
        simpa using ih'

theorem nfc_run_once (A : List Nat) (st : NfcLoopState) (t0 : Nat) (ts : List Nat)
    (hlen : A.length > 0) (hne : st.last_uid ≠ uid_to_string A)
    (heff : t0 - st.last_nfc_check > 100) :
    (nfc_run st ((t0 :: ts).map (fun t => (t, some A)))).2 = 1 := by
  have hp := nfc_poll_new st t0 A heff hlen hne
  have hs := (nfc_run_suppress A ts
    { last_nfc_check := t0, last_uid := uid_to_string A } rfl).1
  simp only [List.map_cons, nfc_run, hp]
  simpa using hs

theorem nfc_run_present_spaced (A : List Nat) :
    ∀ (ts : List Nat) (st : NfcLoopState), spaced st.last_nfc_check ts = true →
      st.last_uid = uid_to_string A →
      nfc_run st (ts.map (fun t => (t, some A))) =
        ({ last_nfc_check := lastOf ts st.last_nfc_check,
           last_uid := uid_to_string A }, 0) := by
  intro ts
  induction ts with
  | nil =>
      intro st hs h
      obtain ⟨c, u⟩ := st
      simp only at h
      simp [nfc_run, lastOf, h]
  | cons t ts ih =>
      intro st hs h
      simp only [spaced, Bool.and_eq_true, decide_eq_true_eq] at hs
      obtain ⟨h1, h2⟩ := hs
      have heff : t - st.last_nfc_check > 100 := by omega
      have hp := nfc_poll_same st t A heff h
      have ih' := ih { st with last_nfc_check := t } (by simpa using h2) h
      simp only [List.map_cons, nfc_run, hp]
      simpa [lastOf] using ih'

theorem nfc_run_absent_spaced :
    ∀ (ts : List Nat) (t0 : Nat) (st : NfcLoopState),
      spaced st.last_nfc_check (t0 :: ts) = true →
      nfc_run st ((t0 :: ts).map (fun t => (t, none))) =
        ({ last_nfc_check := lastOf ts t0, last_uid := "" }, 0) := by
  intro ts
  induction ts with
  | nil =>
      intro t0 st hs
      simp only [spaced, Bool.and_eq_true, decide_eq_true_eq] at hs
      have heff : t0 - st.last_nfc_check > 100 := by omega
      have hp := nfc_poll_clear st t0 heff
      simp [nfc_run, hp, lastOf]
  | cons t1 ts ih =>
      intro t0 st hs
      simp only [spaced, Bool.and_eq_true, decide_eq_true_eq] at hs
      obtain ⟨h1, h2, h3⟩ := hs
      have heff : t0 - st.last_nfc_check > 100 := by omega
      have hp := nfc_poll_clear st t0 heff
      have ih' := ih t1 { last_nfc_check := t0, last_uid := "" }
        (by simp [spaced, h2, h3])
      simp only [List.map_cons, nfc_run, hp] at ih' ⊢
      simpa [lastOf] using ih'

theorem nfc_run_present_new_spaced (A : List Nat) (hlen : A.length > 0)
    (t0 : Nat) (ts : List Nat) (st : NfcLoopState)
    (hs : spaced st.last_nfc_check (t0 :: ts) = true)
    (hne : st.last_uid ≠ uid_to_string A) :
    nfc_run st ((t0 :: ts).map (fun t => (t, some A))) =
      ({ last_nfc_check := lastOf ts t0, last_uid := uid_to_string A }, 1) := by
  simp only [spaced, Bool.and_eq_true, decide_eq_true_eq] at hs
  obtain ⟨h1, h2⟩ := hs
  have heff : t0 - st.last_nfc_check > 100 := by omega
  have hp := nfc_poll_new st t0 A heff hlen hne
  have hrest := nfc_run_present_spaced A ts
    { last_nfc_check := t0, last_uid := uid_to_string A } (by simpa using h2) rfl
  simp only [List.map_cons, nfc_run, hp]
  simp [hrest]

theorem nfc_run_append :
    ∀ (l1 l2 : List (Nat × Option (List Nat))) (st : NfcLoopState),
      nfc_run st (l1 ++ l2) =
        ((nfc_run (nfc_run st l1).1 l2).1,
         (nfc_run st l1).2 + (nfc_run (nfc_run st l1).1 l2).2) := by
  intro l1
  induction l1 with
  | nil => intro l2 st; simp [nfc_run]
  | cons p l1 ih =>
      intro l2 st
      obtain ⟨now, tag⟩ := p
      simp only [List.cons_append, nfc_run, List.append_eq]
      rw [ih]
      simp [Nat.add_assoc]

theorem spaced_append :
    ∀ (l1 l2 : List Nat) (c : Nat),
      spaced c (l1 ++ l2) = (spaced c l1 && spaced (lastOf l1 c) l2) := by
  intro l1
  induction l1 with
  | nil => intro l2 c; simp [spaced, lastOf]
  | cons t l1 ih =>
      intro l2 c
      simp only [List.cons_append, spaced, List.append_eq]
      rw [ih]
      simp [lastOf, Bool.and_assoc]

/-- C1 counterexample: a tag whose uid has length 0 is present for a poll
that clears the 100 ms throttle, yet the loop never dispatches
(`nfc_get_uid` returns length 0 and the `uid_length > 0` guard fails), so
"every uid of length 0-7 yields exactly one dispatch" is false at uid []. -/
theorem nfc_empty_uid_no_dispatch_cex :
    (nfc_run { last_nfc_check := 0, last_uid := "" }
        [(200, some ([] : List Nat))]).2 ≠ 1 := by
  decide

/-- C1 amended (uid length restricted to 1-7): (a) from any state whose
last-seen uid differs from the tag's (in particular after startup or presence
loss), a contiguous presence interval whose first poll clears the 100 ms
throttle dispatches exactly once, no matter how many further polls occur and
at whatever instants; (b) presenting the tag, removing it (with the removal
observed), and re-presenting it — all polls spaced beyond the 100 ms
throttle — dispatches exactly twice. -/
theorem nfc_dispatch_once_and_retrigger :
    (∀ (A : List Nat) (st : NfcLoopState) (t0 : Nat) (ts : List Nat),
      1 ≤ A.length → A.length ≤ 7 → st.last_uid ≠ uid_to_string A →
      t0 - st.last_nfc_check > 100 →
      (nfc_run st ((t0 :: ts).map (fun t => (t, some A)))).2 = 1) ∧
    (∀ (A : List Nat) (st : NfcLoopState) (a b c : Nat) (as bs cs : List Nat),
      1 ≤ A.length → A.length ≤ 7 → st.last_uid ≠ uid_to_string A →
      spaced st.last_nfc_check ((a :: as) ++ (b :: bs) ++ (c :: cs)) = true →
      (nfc_run st ((a :: as).map (fun t => (t, some A)) ++
        (b :: bs).map (fun t => (t, none)) ++
        (c :: cs).map (fun t => (t, some A)))).2 = 2) := by
  constructor
  · intro A st t0 ts h1 _ hne heff
    exact nfc_run_once A st t0 ts (by omega) hne heff
  · intro A st a b c as bs cs h1 _ hne hs
    rw [spaced_append, spaced_append, Bool.and_eq_true, Bool.and_eq_true] at hs
    obtain ⟨⟨hs1, hs2⟩, hs3⟩ := hs
    have hlen : A.length > 0 := by omega
    have h1run := nfc_run_present_new_spaced A hlen a as st hs1 hne
    have h2run := nfc_run_absent_spaced bs b
      { last_nfc_check := lastOf as a, last_uid := uid_to_string A }
      (by simpa [lastOf] using hs2)
    have h3run := nfc_run_present_new_spaced A hlen c cs
      { last_nfc_check := lastOf bs b, last_uid := "" }
      (by simpa [lastOf] using hs3)
      (Ne.symm (uid_to_string_ne_empty A hlen))
    rw [nfc_run_append, nfc_run_append, h1run]
    simp only [h2run]
    simp only [h3run]

/-- C1 witness: one presence interval of uid [0xAA, 0xBB] over two polls
dispatches once; present-remove-re-present over spaced polls dispatches
twice. -/
theorem nfc_dispatch_once_and_retrigger_witness :
    (nfc_run { last_nfc_check := 0, last_uid := "" }
        ((200 :: [250]).map (fun t => (t, some [170, 187])))).2 = 1 ∧
    (nfc_run { last_nfc_check := 0, last_uid := "" }
        ((200 :: []).map (fun t => (t, some [170, 187])) ++
          (310 :: []).map (fun t => (t, none)) ++
          (420 :: []).map (fun t => (t, some [170, 187])))).2 = 2 :=
  ⟨nfc_dispatch_once_and_retrigger.1 [170, 187] _ 200 [250] (by norm_num) (by norm_num)
     (by decide) (by norm_num),
   nfc_dispatch_once_and_retrigger.2 [170, 187] _ 200 310 420 [] [] [] (by norm_num)
     (by norm_num) (by decide) (by decide)⟩

end Meld
